import Mathlib

/-!
Verification of the request-coalescing backend (million-items-list).

Shallow embedding of:
  * `src/services/queue/requestQueue.ts`   (key derivation, enqueue/dedup)
  * `src/services/queue/integratedQueue.ts` (batch processing, domain handlers)
  * `src/models/dataStore.ts`              (store state and operations)
  * `src/config/constants.ts`              (pagination constants)

JavaScript machine state is passed explicitly; promises are modelled as
subscriber identifiers receiving an `Outcome`; `throw`/`catch` is modelled
with `Except`.
-/

set_option maxRecDepth 8000

/-! ### Decimal representation and the JavaScript default sort order

`Array.prototype.sort()` with no comparator converts elements to strings and
compares them by UTF-16 code units.  For natural numbers the string of `n`
is its decimal digits, most significant first (`String(0) = "0"`).
`decDigits n` is that digit list; comparing the digit lists lexicographically
is exactly the string comparison, because the digit characters '0'..'9' are
consecutive code points. -/

/-- Decimal digits of `n`, most significant first, computed with explicit
fuel so that it reduces definitionally (one division by 10 per fuel step). -/
def toDigitsRec : Nat → Nat → List Nat
  | 0, _ => []
  | f + 1, n => if n < 10 then [n] else toDigitsRec f (n / 10) ++ [n % 10]

/-- Decimal digits of `n`, most significant first; `0` is rendered `[0]`,
mirroring `String(0) = "0"` in JavaScript. -/
def decDigits (n : Nat) : List Nat := toDigitsRec (n + 1) n

/-- Reconstruct a number from its most-significant-first digit list. -/
def fromDigits (l : List Nat) : Nat := l.foldl (fun acc d => acc * 10 + d) 0

/-- Character for a single decimal digit (code point 48 + d). -/
def digitChar (d : Nat) : Char := Char.ofNat (48 + d)

/-- Decimal string of a natural number, as JavaScript template literals and
`String(n)` produce it. -/
def natStr (n : Nat) : String := ⟨(decDigits n).map digitChar⟩

theorem fromDigits_append_singleton (l : List Nat) (d : Nat) :
    fromDigits (l ++ [d]) = fromDigits l * 10 + d := by
  unfold fromDigits
  rw [List.foldl_append]
  rfl

theorem toDigitsRec_correct : ∀ fuel n, n < 10 ^ fuel →
    fromDigits (toDigitsRec fuel n) = n := by
  intro fuel
  induction fuel with
  | zero =>
    intro n hn
    simp only [pow_zero, Nat.lt_one_iff] at hn
    subst hn
    rfl
  | succ f ih =>
    intro n hn
    by_cases h10 : n < 10
    · simp [toDigitsRec, h10, fromDigits]
    · have hdiv : n / 10 < 10 ^ f := by
        rw [Nat.div_lt_iff_lt_mul (by omega : 0 < 10)]
        calc n < 10 ^ (f + 1) := hn
          _ = 10 ^ f * 10 := by rw [pow_succ]
      simp only [toDigitsRec, h10, if_false]
      rw [fromDigits_append_singleton, ih (n / 10) hdiv]
      omega

theorem fromDigits_decDigits (n : Nat) : fromDigits (decDigits n) = n := by
  exact toDigitsRec_correct (n + 1) n
    (lt_of_lt_of_le (Nat.lt_pow_self (by omega) n) (Nat.pow_le_pow_right (by omega) (by omega)))

theorem decDigits_inj : ∀ m n : Nat, decDigits m = decDigits n → m = n := by
  intro m n h
  have := congrArg fromDigits h
  rwa [fromDigits_decDigits, fromDigits_decDigits] at this

/-- Lexicographic less-or-equal on digit lists: the UTF-16 string comparison
used by the JavaScript default sort, transported to digit values. -/
def lexLeB : List Nat → List Nat → Bool
  | [], _ => true
  | _ :: _, [] => false
  | a :: as, b :: bs => if a < b then true else if b < a then false else lexLeB as bs

theorem lexLeB_cons_iff (a b : Nat) (as bs : List Nat) :
    lexLeB (a :: as) (b :: bs) = true ↔ a < b ∨ (a = b ∧ lexLeB as bs = true) := by
  simp only [lexLeB]
  split_ifs with h1 h2
  · simp [h1]
  · simp only [false_iff]
    rintro (h | ⟨h, _⟩) <;> omega
  · have hab : a = b := by omega
    simp [hab]

/-- The JavaScript default sort comparator on numbers: compare their decimal
strings lexicographically. -/
def jsLeP (a b : Nat) : Prop := lexLeB (decDigits a) (decDigits b) = true

instance : DecidableRel jsLeP := fun a b =>
  decidable_of_iff (lexLeB (decDigits a) (decDigits b) = true) Iff.rfl

theorem lexLeB_total : ∀ x y : List Nat, lexLeB x y = true ∨ lexLeB y x = true := by
  intro x
  induction x with
  | nil => intro y; left; simp [lexLeB]
  | cons a as ih =>
    intro y
    cases y with
    | nil => right; simp [lexLeB]
    | cons b bs =>
      rw [lexLeB_cons_iff, lexLeB_cons_iff]
      rcases Nat.lt_trichotomy a b with h | h | h
      · left; exact Or.inl h
      · rcases ih bs with h2 | h2
        · left; exact Or.inr ⟨h, h2⟩
        · right; exact Or.inr ⟨h.symm, h2⟩
      · right; exact Or.inl h

theorem lexLeB_trans : ∀ x y z : List Nat,
    lexLeB x y = true → lexLeB y z = true → lexLeB x z = true := by
  intro x
  induction x with
  | nil => intro y z _ _; simp [lexLeB]
  | cons a as ih =>
    intro y z hxy hyz
    cases y with
    | nil => simp [lexLeB] at hxy
    | cons b bs =>
      cases z with
      | nil => simp [lexLeB] at hyz
      | cons c cs =>
        rw [lexLeB_cons_iff] at hxy hyz ⊢
        rcases hxy with h1 | ⟨h1, h1'⟩ <;> rcases hyz with h2 | ⟨h2, h2'⟩
        · exact Or.inl (by omega)
        · exact Or.inl (by omega)
        · exact Or.inl (by omega)
        · exact Or.inr ⟨by omega, ih bs cs h1' h2'⟩

theorem lexLeB_antisymm : ∀ x y : List Nat,
    lexLeB x y = true → lexLeB y x = true → x = y := by
  intro x
  induction x with
  | nil =>
    intro y _ hyx
    cases y with
    | nil => rfl
    | cons b bs => simp [lexLeB] at hyx
  | cons a as ih =>
    intro y hxy hyx
    cases y with
    | nil => simp [lexLeB] at hxy
    | cons b bs =>
      rw [lexLeB_cons_iff] at hxy hyx
      rcases hxy with h1 | ⟨h1, h1'⟩ <;> rcases hyx with h2 | ⟨h2, h2'⟩ <;> try omega
      rw [h1, ih bs h1' h2']

instance : IsTotal Nat jsLeP :=
  ⟨fun a b => lexLeB_total (decDigits a) (decDigits b)⟩

instance : IsTrans Nat jsLeP :=
  ⟨fun _ _ _ h1 h2 => lexLeB_trans _ _ _ h1 h2⟩

instance : IsAntisymm Nat jsLeP :=
  ⟨fun a b h1 h2 => decDigits_inj a b (lexLeB_antisymm _ _ h1 h2)⟩

/-- The result of `ids.sort()` in JavaScript: the unique ordering of the
multiset under the string comparator (insertion sort computes it; any
correct sort of an antisymmetric total order produces the same list). -/
def jsSort (l : List Nat) : List Nat := List.insertionSort jsLeP l

example : jsSort [10, 2, 1] = [1, 10, 2] := by decide

example : natStr 120 = "120" := by decide

/-! ### Constants (`src/config/constants.ts`) -/

def DEFAULT_OFFSET : Nat := 0
def DEFAULT_LIMIT : Nat := 10
def MAX_LIMIT : Nat := 100
def INITIAL_ITEMS_COUNT : Nat := 1000000

/-! ### Data model (`src/types/index.ts`, `src/models/dataStore.ts`) -/

/-- An element of the store.  `createdAt` is an ISO string in the source;
it is modelled as the numeric timestamp it is generated from. -/
structure Item where
  id : Nat
  name : String
  description : String
  category : String
  createdAt : Nat
deriving DecidableEq, Repr

/-- The store: item list, ordered selection, and the max-id counter used by
`addItem` for id allocation. -/
structure DataStore where
  items : List Item
  selectedItems : List Nat
  maxId : Nat
deriving DecidableEq, Repr

/-- One item produced by `DataStore.initialize` (index `i` counts from 0). -/
def initItem (i : Nat) : Item :=
  { id := i + 1
    name := "Item " ++ natStr (i + 1)
    description := "Description for item " ++ natStr (i + 1)
    category := "Category " ++ natStr (i / 10 + 1)
    createdAt := 0 }

/-- The `DataStore` constructor followed by `initialize`: `count` items with
ids `1..count` (the source uses `INITIAL_ITEMS_COUNT = 1000000`), empty
selection, and — as in the source — `maxId` left at `0` (`initialize` never
updates it). -/
def DataStore.seed (count : Nat) : DataStore :=
  { items := (List.range count).map initItem
    selectedItems := []
    maxId := 0 }

def DataStore.getItemById (ds : DataStore) (id : Nat) : Option Item :=
  ds.items.find? (fun it => it.id == id)

/-- `getItemsByIds`: map each id through `getItemById` and drop the
`undefined` results. -/
def DataStore.getItemsByIds (ds : DataStore) (ids : List Nat) : List Item :=
  ids.filterMap ds.getItemById

def DataStore.itemExists (ds : DataStore) (id : Nat) : Bool :=
  ds.items.any (fun it => it.id == id)

/-- `addSelectedItems`: split the request into fresh and already-selected
ids and append the fresh ones (with multiplicity) to the selection. -/
def DataStore.addSelectedItems (ds : DataStore) (ids : List Nat) :
    DataStore × List Nat × List Nat :=
  let newIds := ids.filter (fun id => !ds.selectedItems.contains id)
  let duplicateIds := ids.filter (fun id => ds.selectedItems.contains id)
  ({ ds with selectedItems := ds.selectedItems ++ newIds }, newIds, duplicateIds)

/-- `setSelectedItemsOrder`: replace the selection sequence wholesale. -/
def DataStore.setSelectedItemsOrder (ds : DataStore) (ids : List Nat) : DataStore :=
  { ds with selectedItems := ids }

/-- `removeSelectedItems`: drop every selected id present in the request and
report how many entries were dropped. -/
def DataStore.removeSelectedItems (ds : DataStore) (ids : List Nat) :
    DataStore × Nat :=
  let remaining := ds.selectedItems.filter (fun id => !ids.contains id)
  ({ ds with selectedItems := remaining }, ds.selectedItems.length - remaining.length)

/-- Errors thrown by the store or by the handlers (`throw new Error(...)` /
`ValidationError` / `NotFoundError`); the payload records the ids named in
the message. -/
inductive QErr where
  | notFoundIds (ids : List Nat)
  | notSelectedIds (ids : List Nat)
  | conflictId (id : Nat)
  | unknownReadOp
  | unknownWriteOp
  | badPayload
deriving DecidableEq, Repr

instance {ε α : Type} [DecidableEq ε] [DecidableEq α] : DecidableEq (Except ε α) :=
  fun a b =>
    match a, b with
    | .ok x, .ok y =>
      if h : x = y then isTrue (by rw [h])
      else isFalse (by intro hc; cases hc; exact h rfl)
    | .ok _, .error _ => isFalse (fun hc => Except.noConfusion hc)
    | .error _, .ok _ => isFalse (fun hc => Except.noConfusion hc)
    | .error x, .error y =>
      if h : x = y then isTrue (by rw [h])
      else isFalse (by intro hc; cases hc; exact h rfl)

/-- `DataStore.addItem`.  With an explicit id: reject on collision, else
adopt it and bump `maxId`.  Without an id: allocate `maxId + 1` with no
collision check (mirroring the source exactly).  `now` is the clock value
used for the generation timestamp. -/
def DataStore.addItem (ds : DataStore) (idGiven : Option Nat)
    (name description category : String) (now : Nat) :
    DataStore × Except QErr Item :=
  match idGiven with
  | some i =>
    if ds.itemExists i then (ds, .error (.conflictId i))
    else
      let newItem : Item := { id := i, name := name, description := description,
                              category := category, createdAt := now }
      ({ ds with maxId := max ds.maxId i, items := ds.items ++ [newItem] }, .ok newItem)
  | none =>
    let newId := ds.maxId + 1
    let newItem : Item := { id := newId, name := name, description := description,
                            category := category, createdAt := now }
    ({ ds with maxId := newId, items := ds.items ++ [newItem] }, .ok newItem)

/-! ### Actions, payloads and dedup-key derivation
(`src/services/queue/requestQueue.ts`) -/

inductive QAction where
  | GET_ALL
  | GET_SELECTED
  | ADD_ITEM
  | UPDATE_ORDER
  | REMOVE_ITEM
  | CREATE_ITEM
deriving DecidableEq, Repr

def actionStr : QAction → String
  | .GET_ALL => "GET_ALL"
  | .GET_SELECTED => "GET_SELECTED"
  | .ADD_ITEM => "ADD_ITEM"
  | .UPDATE_ORDER => "UPDATE_ORDER"
  | .REMOVE_ITEM => "REMOVE_ITEM"
  | .CREATE_ITEM => "CREATE_ITEM"

/-- `readOperations.includes(action)` in `getOperationType`. -/
inductive OpType where
  | READ
  | WRITE
deriving DecidableEq, Repr

def getOperationType : QAction → OpType
  | .GET_ALL => .READ
  | .GET_SELECTED => .READ
  | _ => .WRITE

/-- The payload shapes that flow through `enqueue` (`data?: any`): an id
collection (`{ids}`), a query (`{offset?, limit?, filter?}`), or a creation
record (`{id?, name, description, category}`). -/
inductive Data where
  | ids (ids : List Nat)
  | query (offsetQ limitQ : Option Nat) (filterQ : Option String)
  | create (idQ : Option Nat) (name description category : String)
deriving DecidableEq, Repr

/-- `data?.id` with JavaScript truthiness: present and nonzero. -/
def truthyId : Data → Option Nat
  | .create (some i) _ _ _ => if i = 0 then none else some i
  | _ => none

def idsField : Data → Option (List Nat)
  | .ids l => some l
  | _ => none

/-- `data?.filter !== undefined` — the empty string still selects the
filter branch of the key derivation. -/
def filterField : Data → Option String
  | .query _ _ f => f
  | _ => none

def offsetField : Data → Option Nat
  | .query o _ _ => o
  | _ => none

def limitField : Data → Option Nat
  | .query _ l _ => l
  | _ => none

/-- JavaScript `x || dflt` on an optional number: `0` is falsy. -/
def jsOrNat (o : Option Nat) (dflt : Nat) : Nat :=
  match o with
  | some n => if n = 0 then dflt else n
  | none => dflt

def underscoreJoin : List String → String
  | [] => ""
  | s :: rest => rest.foldl (fun acc t => acc ++ "_" ++ t) s

/-- Comma-join the fields that are present (`JSON.stringify` omits object
properties whose value is `undefined`). -/
def jsonFields (fields : List (Option String)) : String :=
  String.intercalate "," (fields.filterMap id)

/-- Model of `JSON.stringify(data)` for the fall-through branch of the key
derivation (no id, no ids, no filter field). -/
def stringifyData : Option Data → String
  | none => "undefined"
  | some (.ids l) =>
    "\x7b\"ids\":[" ++ String.intercalate "," (l.map natStr) ++ "]\x7d"
  | some (.query o l f) =>
    "\x7b" ++ jsonFields
      [o.map (fun n => "\"offset\":" ++ natStr n),
       l.map (fun n => "\"limit\":" ++ natStr n),
       f.map (fun t => "\"filter\":\"" ++ t ++ "\"")] ++ "\x7d"
  | some (.create i n d c) =>
    "\x7b" ++ jsonFields
      [i.map (fun v => "\"id\":" ++ natStr v),
       some ("\"name\":\"" ++ n ++ "\""),
       some ("\"description\":\"" ++ d ++ "\""),
       some ("\"category\":\"" ++ c ++ "\"")] ++ "\x7d"

/-- `RequestQueue.generateKey`: the cascade over `data?.id`, `data?.ids`,
`data?.filter !== undefined`, and the JSON fallback. -/
def generateKey (action : QAction) (data : Option Data) : String :=
  match data with
  | some d =>
    match truthyId d with
    | some i => actionStr action ++ "_" ++ natStr i
    | none =>
      match idsField d with
      | some l => actionStr action ++ "_" ++ underscoreJoin ((jsSort l).map natStr)
      | none =>
        match filterField d with
        | some f =>
          actionStr action ++ "_filter_" ++ f ++ "_"
            ++ natStr (jsOrNat (offsetField d) 0) ++ "_"
            ++ natStr (jsOrNat (limitField d) 20)
        | none => actionStr action ++ "_" ++ stringifyData data
  | none => actionStr action ++ "_" ++ stringifyData none

example : generateKey .ADD_ITEM (some (.ids [3, 1, 2])) = "ADD_ITEM_1_2_3" := by decide

example : generateKey .GET_ALL (some (.query none none (some "a")))
    = "GET_ALL_filter_a_0_20" := by decide

/-- The side effect of `generateKey`: `data.ids.sort()` sorts the payload's
id array **in place** with the string comparator, so by the time the queue
entry captures the payload, an id-collection has been replaced by its
string-sorted form (all other payload shapes are untouched). -/
def mutateIds : Option Data → Option Data
  | some (.ids l) => some (.ids (jsSort l))
  | d => d

theorem jsSort_idem (l : List Nat) : jsSort (jsSort l) = jsSort l :=
  List.Sorted.insertionSort_eq (List.sorted_insertionSort jsLeP l)

/-- The derived key is unchanged by the in-place sort: `generateKey`
already sorts the id list before rendering it. -/
theorem generateKey_mutateIds (a : QAction) (d : Option Data) :
    generateKey a (mutateIds d) = generateKey a d := by
  cases d with
  | none => rfl
  | some dt =>
    cases dt with
    | ids l =>
      show actionStr a ++ "_" ++ underscoreJoin ((jsSort (jsSort l)).map natStr)
          = actionStr a ++ "_" ++ underscoreJoin ((jsSort l).map natStr)
      rw [jsSort_idem]
    | query o li f => rfl
    | create i n de c => rfl

/-! ### Handler results (`src/types/index.ts`) -/

structure PaginationMeta where
  offset : Nat
  limit : Nat
  total : Nat
  hasMore : Bool
deriving DecidableEq, Repr

structure PaginatedItems where
  data : List Item
  pagination : PaginationMeta
deriving DecidableEq, Repr

structure SelectedItemsResponse where
  data : List Item
  selectedIds : List Nat
  pagination : PaginationMeta
deriving DecidableEq, Repr

structure AddSelectedResult where
  message : String
  added : List Nat
  duplicates : List Nat
  totalSelected : Nat
deriving DecidableEq, Repr

structure UpdateOrderResult where
  message : String
  selectedItems : List Nat
  total : Nat
deriving DecidableEq, Repr

structure RemoveSelectedResult where
  message : String
  removed : Nat
  notFound : Nat
  totalSelected : Nat
deriving DecidableEq, Repr

/-- The sentinel object a duplicate WRITE caller is resolved with. -/
structure DupSentinel where
  success : Bool
  message : String
  timestamp : Nat
deriving DecidableEq, Repr

def dupMessage : String := "Добавление дубликата проигнорировано"

/-- The `result: any` a subscriber's promise is resolved with. -/
inductive QResult where
  | page (p : PaginatedItems)
  | selectedPage (p : SelectedItemsResponse)
  | addRes (r : AddSelectedResult)
  | orderRes (r : UpdateOrderResult)
  | removeRes (r : RemoveSelectedResult)
deriving DecidableEq, Repr

/-- The final state of one caller's promise. -/
inductive Outcome where
  | resolved (r : QResult)
  | rejected (e : QErr)
deriving DecidableEq, Repr

/-! ### The pending registry and `enqueue`
(`src/services/queue/requestQueue.ts`) -/

/-- One caller waiting on a pending entry (`QueueSubscriber`); the resolve
and reject closures are modelled by delivering an `Outcome` tagged with the
subscriber id `sid`. -/
structure QueueSubscriber where
  sid : Nat
  subscribedAt : Nat
deriving DecidableEq, Repr

/-- A pending entry of the registry (`QueueItem`); `id` is the dedup key. -/
structure QueueItem where
  id : String
  action : QAction
  data : Option Data
  timestamp : Nat
  subscribers : List QueueSubscriber
  opType : OpType
deriving DecidableEq, Repr

/-- What `enqueue` does to the calling promise right away: leave it pending
until the batch runs, or resolve it immediately with the duplicate-write
sentinel. -/
inductive EnqueueEffect where
  | pending
  | resolvedNow (s : DupSentinel)
deriving DecidableEq, Repr

def mkEntry (a : QAction) (d : Option Data) (now : Nat)
    (subs : List QueueSubscriber) : QueueItem :=
  { id := generateKey a d, action := a, data := d, timestamp := now,
    subscribers := subs, opType := getOperationType a }

/-- `RequestQueue.enqueue`: dedup on the derived key.  READ duplicates join
the entry's subscriber list (refreshing its timestamp), WRITE duplicates
are resolved immediately with the sentinel and leave the registry
untouched, fresh keys insert a new entry.  The entry stores the payload
**after** `generateKey`'s in-place `ids.sort()` (`mutateIds`), which is
what the handler will later receive.  The registry is an insertion-ordered
association list, as a JavaScript `Map` is. -/
def enqueue (q : List QueueItem) (a : QAction) (d : Option Data)
    (sid now : Nat) : List QueueItem × EnqueueEffect :=
  let key := generateKey a d
  let ty := getOperationType a
  if q.any (fun it => it.id == key) then
    if ty = .READ then
      (q.map (fun it =>
        if it.id == key then
          { it with subscribers := it.subscribers ++ [⟨sid, now⟩], timestamp := now }
        else it), .pending)
    else
      (q, .resolvedNow ⟨true, dupMessage, now⟩)
  else
    (q ++ [mkEntry a (mutateIds d) now [⟨sid, now⟩]], .pending)

/-- A burst of concurrent `submit` calls with the same action and payload,
one per subscriber id, all arriving before any timer fires. -/
def enqueueMany (q : List QueueItem) (a : QAction) (d : Option Data)
    (now : Nat) : List Nat → List QueueItem × List EnqueueEffect
  | [] => (q, [])
  | s :: rest =>
    let r1 := enqueue q a d s now
    let r2 := enqueueMany r1.1 a d now rest
    (r2.1, r1.2 :: r2.2)

/-! ### Domain handlers (`src/services/queue/integratedQueue.ts`) -/

/-- Lowercase a string (`String.prototype.toLowerCase`, ASCII as used by
the store's data). -/
def strLower (s : String) : String := ⟨s.data.map Char.toLower⟩

def leadsWith : List Char → List Char → Bool
  | [], _ => true
  | _ :: _, [] => false
  | a :: as, b :: bs => a == b && leadsWith as bs

def hasSub (needle : List Char) : List Char → Bool
  | [] => needle.isEmpty
  | c :: rest => leadsWith needle (c :: rest) || hasSub needle rest

/-- `haystack.includes(needle)` on strings. -/
def strIncludes (haystack needle : String) : Bool :=
  hasSub needle.data haystack.data

example : strIncludes "category 12" "a" = true := by decide
example : strIncludes "description" "a" = false := by decide

/-- The substring match of `handleGetAll` over name, description and
category, case-insensitively. -/
def matchesFilter (filter : String) (it : Item) : Bool :=
  strIncludes (strLower it.name) filter
    || strIncludes (strLower it.description) filter
    || strIncludes (strLower it.category) filter

/-- `IntegratedQueue.handleGetAll`: defaults (`offset ?? 0`,
`min (limit ?? 10) 100`, `filter?.toLowerCase() || ""`), substring filter,
then `slice(offset, offset + limit)`. -/
def handleGetAll (ds : DataStore) (d : Option Data) : PaginatedItems :=
  let offset := (d.bind offsetField).getD DEFAULT_OFFSET
  let limit := min ((d.bind limitField).getD DEFAULT_LIMIT) MAX_LIMIT
  let filter := strLower ((d.bind filterField).getD "")
  let allItems := if filter ≠ "" then ds.items.filter (matchesFilter filter) else ds.items
  let total := allItems.length
  { data := (allItems.drop offset).take limit
    pagination := { offset := offset, limit := limit, total := total,
                    hasMore := offset + limit < total } }

/-- `IntegratedQueue.handleGetSelected`: paginate the selection ids,
resolve them to items, and return the full unpaginated id list as well. -/
def handleGetSelected (ds : DataStore) (d : Option Data) : SelectedItemsResponse :=
  let offset := (d.bind offsetField).getD DEFAULT_OFFSET
  let limit := min ((d.bind limitField).getD DEFAULT_LIMIT) MAX_LIMIT
  let selectedIds := ds.selectedItems
  let total := selectedIds.length
  let paginatedIds := (selectedIds.drop offset).take limit
  { data := ds.getItemsByIds paginatedIds
    selectedIds := selectedIds
    pagination := { offset := offset, limit := limit, total := total,
                    hasMore := offset + limit < total } }

/-- `IntegratedQueue.handleAddItem`: validate that every id exists, then
append the not-yet-selected ones.  The pair is (store after the call,
thrown error or result); the store is returned unchanged on the error
path because the source throws before touching it. -/
def handleAddItem (ds : DataStore) (d : Option Data) :
    DataStore × Except QErr QResult :=
  match d with
  | some (.ids ids) =>
    let nonExistentIds := ids.filter (fun id => !ds.itemExists id)
    if nonExistentIds.length > 0 then
      (ds, .error (.notFoundIds nonExistentIds))
    else
      let res := ds.addSelectedItems ids
      let newIds := res.2.1
      (res.1, .ok (.addRes
        { message := if newIds.length > 0
            then "Добавлено " ++ natStr newIds.length ++ " элементов"
            else "Все элементы уже были выбраны"
          added := newIds
          duplicates := res.2.2
          totalSelected := res.1.selectedItems.length }))
  | _ => (ds, .error .badPayload)

/-- `IntegratedQueue.handleUpdateOrder`: the only validation is that every
requested id is currently selected; then the selection sequence is replaced
by the request verbatim. -/
def handleUpdateOrder (ds : DataStore) (d : Option Data) :
    DataStore × Except QErr QResult :=
  match d with
  | some (.ids ids) =>
    let invalidIds := ids.filter (fun id => !ds.selectedItems.contains id)
    if invalidIds.length > 0 then
      (ds, .error (.notSelectedIds invalidIds))
    else
      let ds2 := ds.setSelectedItemsOrder ids
      (ds2, .ok (.orderRes
        { message := "Порядок обновлен", selectedItems := ids, total := ids.length }))
  | _ => (ds, .error .badPayload)

/-- `IntegratedQueue.handleRemoveItem`: count the requested ids that are
not currently selected, then drop the rest; never fails. -/
def handleRemoveItem (ds : DataStore) (d : Option Data) :
    DataStore × Except QErr QResult :=
  match d with
  | some (.ids ids) =>
    let notFound := (ids.filter (fun id => !ds.selectedItems.contains id)).length
    let res := ds.removeSelectedItems ids
    let removed := res.2
    (res.1, .ok (.removeRes
      { message := if removed > 0
          then "Удалено " ++ natStr removed ++ " элементов"
          else "Элементы не были выбраны"
        removed := removed
        notFound := notFound
        totalSelected := res.1.selectedItems.length }))
  | _ => (ds, .error .badPayload)

/-! ### Batch execution (`processReadBatch` / `processWriteBatch`) -/

/-- The switch of `processReadBatch`: dispatch a READ entry, or throw on an
unknown action (only reachable for entries that are not READ-classified). -/
def runReadHandler (ds : DataStore) (a : QAction) (d : Option Data) :
    Except QErr QResult :=
  match a with
  | .GET_ALL => .ok (.page (handleGetAll ds d))
  | .GET_SELECTED => .ok (.selectedPage (handleGetSelected ds d))
  | _ => .error .unknownReadOp

/-- The switch of `processWriteBatch`; `CREATE_ITEM` has no case in the
source and falls into the `default: throw` branch. -/
def runWriteHandler (ds : DataStore) (a : QAction) (d : Option Data) :
    DataStore × Except QErr QResult :=
  match a with
  | .ADD_ITEM => handleAddItem ds d
  | .UPDATE_ORDER => handleUpdateOrder ds d
  | .REMOVE_ITEM => handleRemoveItem ds d
  | _ => (ds, .error .unknownWriteOp)

/-- Processing of one READ entry: run its handler once inside try/catch and
deliver the one result (or the one error) to every subscriber. -/
def readStep (ds : DataStore) (it : QueueItem) : List (Nat × Outcome) :=
  match runReadHandler ds it.action it.data with
  | .ok r => it.subscribers.map (fun s => (s.sid, .resolved r))
  | .error e => it.subscribers.map (fun s => (s.sid, .rejected e))

/-- `IntegratedQueue.processReadBatch`: every entry is processed, each with
its own try/catch, so one entry's failure never stops the loop. -/
def processReadBatch (ds : DataStore) (batch : List QueueItem) :
    List (Nat × Outcome) :=
  (batch.map (readStep ds)).flatten

/-- Processing of one WRITE entry: run its handler once inside try/catch;
on success the store advances and every subscriber gets the result, on a
throw the store stays as the handler left it and every subscriber gets the
error. -/
def writeStep (ds : DataStore) (it : QueueItem) : DataStore × List (Nat × Outcome) :=
  let res := runWriteHandler ds it.action it.data
  match res.2 with
  | .ok r => (res.1, it.subscribers.map (fun s => (s.sid, .resolved r)))
  | .error e => (res.1, it.subscribers.map (fun s => (s.sid, .rejected e)))

/-- `IntegratedQueue.processWriteBatch`: sequential processing of the
entries, each in its own try/catch. -/
def processWriteBatch : DataStore → List QueueItem → DataStore × List (Nat × Outcome)
  | ds, [] => (ds, [])
  | ds, it :: rest =>
    let st := writeStep ds it
    let nx := processWriteBatch st.1 rest
    (nx.1, st.2 ++ nx.2)

/-- `executeReadBatch`: drain every READ entry from the registry, leaving
the rest, and process the drained batch against the store. -/
def executeReadBatch (ds : DataStore) (q : List QueueItem) :
    List QueueItem × List (Nat × Outcome) :=
  let readItems := q.filter (fun it => it.opType == .READ)
  (q.filter (fun it => !(it.opType == .READ)), processReadBatch ds readItems)

/-! ### Concrete states used by examples and counterexamples -/

/-- Store of three items (ids 1, 2, 3) whose full selection `[1, 2, 3]` was
built through the add-to-selection handler. -/
def dsSel123 : DataStore := (handleAddItem (DataStore.seed 3) (some (.ids [1, 2, 3]))).1

/-- Store of five items with selection `[1, 2]`, built through the
add-to-selection handler. -/
def dsSel12 : DataStore := (handleAddItem (DataStore.seed 5) (some (.ids [1, 2]))).1

example : dsSel123.selectedItems = [1, 2, 3] := by decide
example : dsSel12.selectedItems = [1, 2] := by decide
example : (handleUpdateOrder dsSel123 (some (.ids [1, 2]))).1.selectedItems = [1, 2] := by decide
example : (handleRemoveItem dsSel12 (some (.ids [2, 2, 5]))).2
    = .ok (.removeRes { message := "Удалено 1 элементов", removed := 1, notFound := 1,
                        totalSelected := 1 }) := by decide

/-! ### Registry lemmas -/

theorem any_key_false {q : List QueueItem} {k : String} (h : ∀ it ∈ q, it.id ≠ k) :
    (q.any (fun it => it.id == k)) = false := by
  simp only [List.any_eq_false, beq_iff_eq]
  exact h

theorem any_key_true {q : List QueueItem} {k : String} (hex : ∃ it ∈ q, it.id = k) :
    (q.any (fun it => it.id == k)) = true := by
  simp only [List.any_eq_true, beq_iff_eq]
  exact hex

/-- A `submit` whose key is not pending appends a fresh single-waiter
entry; the entry's payload is the one left behind by `generateKey`'s
in-place sort. -/
theorem enqueue_fresh {q : List QueueItem} {a : QAction} {d : Option Data}
    {s now : Nat} (h : ∀ it ∈ q, it.id ≠ generateKey a d) :
    enqueue q a d s now = (q ++ [mkEntry a (mutateIds d) now [⟨s, now⟩]], .pending) := by
  simp [enqueue, any_key_false h]

/-- A READ `submit` whose key matches the trailing entry joins that entry,
whatever payload the entry was created with (only the key is compared). -/
theorem enqueue_join_entry {q : List QueueItem} {a : QAction} {d : Option Data}
    {e : QueueItem} (hread : getOperationType a = .READ)
    (h : ∀ it ∈ q, it.id ≠ generateKey a d) (he : e.id = generateKey a d)
    (s now : Nat) :
    enqueue (q ++ [e]) a d s now
      = (q ++ [{ e with subscribers := e.subscribers ++ [⟨s, now⟩], timestamp := now }],
         .pending) := by
  have hany : (q ++ [e]).any (fun it => it.id == generateKey a d) = true :=
    any_key_true ⟨e, by simp, he⟩
  have hq : q.map (fun it =>
      if it.id = generateKey a d then
        { it with subscribers := it.subscribers ++ [⟨s, now⟩], timestamp := now }
      else it) = q := by
    conv_rhs => rw [← List.map_id q]
    exact List.map_congr_left (fun it hm => by simp [h it hm])
  simp [enqueue, hany, hread, he]
  exact hq

/-- A burst of READ submissions with a pending entry for their key extends
that entry's waiter list, one waiter per call, all left pending.  The
entry's stored payload `dStored` only has to derive the same key as the
submissions' payload. -/
theorem enqueueMany_join {q : List QueueItem} {a : QAction} {d : Option Data}
    {now : Nat} (hread : getOperationType a = .READ)
    (h : ∀ it ∈ q, it.id ≠ generateKey a d) (dStored : Option Data)
    (hk : generateKey a dStored = generateKey a d) :
    ∀ (sids : List Nat) (subs : List QueueSubscriber),
      enqueueMany (q ++ [mkEntry a dStored now subs]) a d now sids
        = (q ++ [mkEntry a dStored now (subs ++ sids.map (fun s => ⟨s, now⟩))],
           List.replicate sids.length .pending) := by
  intro sids
  induction sids with
  | nil => intro subs; simp [enqueueMany]
  | cons s rest ih =>
    intro subs
    have hkid : (mkEntry a dStored now subs).id = generateKey a d := hk
    simp only [enqueueMany, enqueue_join_entry hread h hkid s now]
    have hent : ({ mkEntry a dStored now subs with
        subscribers := (mkEntry a dStored now subs).subscribers ++ [⟨s, now⟩],
        timestamp := now } : QueueItem)
        = mkEntry a dStored now (subs ++ [⟨s, now⟩]) := rfl
    rw [hent, ih]
    simp [List.replicate_succ]

/-- A burst of READ submissions with a fresh key creates one entry whose
waiter list is exactly the burst, in order, and whose payload is the
string-sorted form of the submitted one. -/
theorem enqueueMany_fresh {q : List QueueItem} {a : QAction} {d : Option Data}
    {now : Nat} (hread : getOperationType a = .READ)
    (h : ∀ it ∈ q, it.id ≠ generateKey a d) (s : Nat) (rest : List Nat) :
    enqueueMany q a d now (s :: rest)
      = (q ++ [mkEntry a (mutateIds d) now ((s :: rest).map (fun x => ⟨x, now⟩))],
         List.replicate (rest.length + 1) .pending) := by
  simp only [enqueueMany, enqueue_fresh h]
  rw [enqueueMany_join hread h (mutateIds d) (generateKey_mutateIds a d) rest [⟨s, now⟩]]
  simp [List.replicate_succ]

/-- A WRITE `submit` whose key is pending is suppressed: the sentinel goes
back to the caller and the registry is untouched. -/
theorem enqueue_write_dup {q : List QueueItem} {a : QAction} {d : Option Data}
    (sid now : Nat) (hw : getOperationType a = .WRITE)
    (hex : ∃ it ∈ q, it.id = generateKey a d) :
    enqueue q a d sid now = (q, .resolvedNow ⟨true, dupMessage, now⟩) := by
  simp [enqueue, any_key_true hex, hw]

theorem filter_key_single {q : List QueueItem} {k : String}
    (h : ∀ it ∈ q, it.id ≠ k) {e : QueueItem} (he : e.id = k) :
    (q ++ [e]).filter (fun it => it.id == k) = [e] := by
  rw [List.filter_append, List.filter_eq_nil_iff.mpr (fun it hm => by simp [h it hm])]
  simp [he]

theorem filter_key_length_one {q : List QueueItem} {k : String}
    (h : ∀ it ∈ q, it.id ≠ k) {e : QueueItem} (he : e.id = k) :
    ((q ++ [e]).filter (fun it => it.id == k)).length = 1 := by
  rw [filter_key_single h he]
  rfl

/-- Among the READ entries drained into a batch, a fresh key contributes
exactly its one entry. -/
theorem batch_key_single {q : List QueueItem} {k : String}
    (h : ∀ it ∈ q, it.id ≠ k) {e : QueueItem} (he : e.id = k)
    (hr : e.opType = .READ) :
    ((q ++ [e]).filter (fun it => it.opType == OpType.READ)).filter
        (fun it => it.id == k) = [e] := by
  rw [List.filter_append]
  rw [List.filter_append]
  rw [List.filter_eq_nil_iff.mpr
    (fun it hm => by simp [h it (List.mem_filter.mp hm).1])]
  simp [he, hr]

/-! ### Claims -/

/-- Claim C6: for every submit whose action is WRITE-classified and whose
dedup key matches a live pending entry, the caller is resolved immediately
with the duplicate-suppressed sentinel and the registry — hence the
existing entry's payload, waiters, and eventual execution — is unchanged. -/
theorem c6_write_duplicate_suppressed (q : List QueueItem) (a : QAction)
    (d : Option Data) (sid now : Nat)
    (hw : getOperationType a = .WRITE)
    (hex : ∃ it ∈ q, it.id = generateKey a d) :
    enqueue q a d sid now = (q, .resolvedNow ⟨true, dupMessage, now⟩) :=
  enqueue_write_dup sid now hw hex

/-- Witness for C6: a second ADD_ITEM submission with the key of a live
entry is suppressed and leaves the registry exactly as it was. -/
theorem c6_write_duplicate_suppressed_witness :
    enqueue [mkEntry .ADD_ITEM (some (.ids [1])) 0 [⟨1, 0⟩]] .ADD_ITEM
        (some (.ids [1])) 2 3
      = ([mkEntry .ADD_ITEM (some (.ids [1])) 0 [⟨1, 0⟩]],
         .resolvedNow ⟨true, dupMessage, 3⟩) :=
  c6_write_duplicate_suppressed _ .ADD_ITEM (some (.ids [1])) 2 3 rfl
    ⟨mkEntry .ADD_ITEM (some (.ids [1])) 0 [⟨1, 0⟩], by simp, rfl⟩

/-- Claim C7: an add-to-selection request containing at least one id that
does not exist in the store rejects with a not-found error naming exactly
the missing ids, and leaves the store — in particular the selection
sequence — unchanged. -/
theorem c7_add_missing_rejects_atomically (ds : DataStore) (ids : List Nat)
    (h : ∃ i ∈ ids, ds.itemExists i = false) :
    handleAddItem ds (some (.ids ids))
      = (ds, .error (.notFoundIds (ids.filter (fun i => !ds.itemExists i)))) := by
  obtain ⟨i, hm, hni⟩ := h
  have hmem : i ∈ ids.filter (fun i => !ds.itemExists i) :=
    List.mem_filter.mpr ⟨hm, by simp [hni]⟩
  have hlen : (ids.filter (fun i => !ds.itemExists i)).length > 0 :=
    List.length_pos.mpr (List.ne_nil_of_mem hmem)
  simp [handleAddItem, hlen]

/-- Witness for C7: `add-to-selection [1, 999]` on a 2-item store rejects
naming exactly 999 and the state is returned unchanged. -/
theorem c7_add_missing_rejects_atomically_witness :
    handleAddItem (DataStore.seed 2) (some (.ids [1, 999]))
      = (DataStore.seed 2, .error (.notFoundIds [999])) := by
  rw [c7_add_missing_rejects_atomically (DataStore.seed 2) [1, 999]
    ⟨999, by decide, by decide⟩]
  decide

/-- Claim C8: dedup-key derivation over id-collection payloads is
order-independent — permuted id lists yield equal keys — and two
submissions with permuted id lists therefore collapse onto a single
pending entry instead of creating two. -/
theorem c8_key_order_independent (a : QAction) (l1 l2 : List Nat)
    (hp : l1.Perm l2) :
    generateKey a (some (.ids l1)) = generateKey a (some (.ids l2)) ∧
    ∀ (q : List QueueItem) (s1 s2 now : Nat),
      (∀ it ∈ q, it.id ≠ generateKey a (some (.ids l1))) →
      ((enqueue (enqueue q a (some (.ids l1)) s1 now).1 a (some (.ids l2)) s2 now).1.filter
          (fun it => it.id == generateKey a (some (.ids l1)))).length = 1 := by
  have hsort : jsSort l1 = jsSort l2 :=
    List.eq_of_perm_of_sorted
      ((List.perm_insertionSort jsLeP l1).trans
        (hp.trans (List.perm_insertionSort jsLeP l2).symm))
      (List.sorted_insertionSort jsLeP l1) (List.sorted_insertionSort jsLeP l2)
  have hkey : generateKey a (some (.ids l1)) = generateKey a (some (.ids l2)) := by
    show actionStr a ++ "_" ++ underscoreJoin ((jsSort l1).map natStr)
        = actionStr a ++ "_" ++ underscoreJoin ((jsSort l2).map natStr)
    rw [hsort]
  refine ⟨hkey, ?_⟩
  intro q s1 s2 now habs
  have h1 : (enqueue q a (some (.ids l1)) s1 now).1
      = q ++ [mkEntry a (mutateIds (some (.ids l1))) now [⟨s1, now⟩]] := by
    rw [enqueue_fresh habs]
  rw [h1]
  have he1id : (mkEntry a (mutateIds (some (.ids l1))) now [⟨s1, now⟩]).id
      = generateKey a (some (.ids l1)) := generateKey_mutateIds a (some (.ids l1))
  have habs2 : ∀ it ∈ q, it.id ≠ generateKey a (some (.ids l2)) := by
    rw [← hkey]; exact habs
  by_cases hty : getOperationType a = .READ
  · rw [enqueue_join_entry hty habs2 (he1id.trans hkey) s2 now]
    exact filter_key_length_one habs he1id
  · have hw : getOperationType a = .WRITE := by
      cases hop : getOperationType a
      · exact absurd hop hty
      · rfl
    rw [enqueue_write_dup s2 now hw
      ⟨mkEntry a (mutateIds (some (.ids l1))) now [⟨s1, now⟩], by simp, he1id.trans hkey⟩]
    exact filter_key_length_one habs he1id

/-- Witness for C8: `[3,1,2]` and `[1,2,3]` derive the same ADD_ITEM key,
and submitting both leaves a single pending entry. -/
theorem c8_key_order_independent_witness :
    generateKey .ADD_ITEM (some (.ids [3, 1, 2]))
        = generateKey .ADD_ITEM (some (.ids [1, 2, 3])) ∧
    ((enqueue (enqueue [] .ADD_ITEM (some (.ids [3, 1, 2])) 1 0).1 .ADD_ITEM
        (some (.ids [1, 2, 3])) 2 0).1.filter
        (fun it => it.id == generateKey .ADD_ITEM (some (.ids [3, 1, 2])))).length = 1 := by
  have h := c8_key_order_independent .ADD_ITEM [3, 1, 2] [1, 2, 3] (by decide)
  exact ⟨h.1, h.2 [] 1 2 0 (by simp)⟩

/-- Claim C1: N ≥ 1 concurrent bulk-fetch submissions with the same payload,
all issued before the read timer fires, leave every caller pending, create
exactly one batch entry for that dedup key (so the read handler runs once
for it — `processReadBatch` invokes the handler once per entry), and
processing that entry resolves every one of the N callers with the same
result value. -/
theorem c1_concurrent_bulk_fetch_dedup (ds : DataStore) (q : List QueueItem)
    (d : Option Data) (now s : Nat) (rest : List Nat)
    (habs : ∀ it ∈ q, it.id ≠ generateKey .GET_ALL d) :
    (enqueueMany q .GET_ALL d now (s :: rest)).2
        = List.replicate (s :: rest).length .pending ∧
    (enqueueMany q .GET_ALL d now (s :: rest)).1
        = q ++ [mkEntry .GET_ALL (mutateIds d) now ((s :: rest).map (fun x => ⟨x, now⟩))] ∧
    (((enqueueMany q .GET_ALL d now (s :: rest)).1.filter
          (fun it => it.opType == OpType.READ)).filter
          (fun it => it.id == generateKey .GET_ALL d))
        = [mkEntry .GET_ALL (mutateIds d) now ((s :: rest).map (fun x => ⟨x, now⟩))] ∧
    readStep ds (mkEntry .GET_ALL (mutateIds d) now ((s :: rest).map (fun x => ⟨x, now⟩)))
        = (s :: rest).map
            (fun x => (x, Outcome.resolved (.page (handleGetAll ds (mutateIds d))))) := by
  have hfresh := @enqueueMany_fresh q .GET_ALL d now
    (show getOperationType .GET_ALL = .READ from rfl) habs s rest
  refine ⟨?_, ?_, ?_, ?_⟩
  · rw [hfresh]
    simp
  · rw [hfresh]
  · rw [hfresh]
    exact batch_key_single habs (generateKey_mutateIds .GET_ALL d) rfl
  · simp only [readStep, runReadHandler, mkEntry, List.map_map]
    rfl

/-- Witness for C1: two concurrent `GET_ALL {filter:"a"}` submissions on a
2-item store are both left pending, form a single batch entry, and both
callers are resolved with the identical result. -/
theorem c1_concurrent_bulk_fetch_dedup_witness :
    (enqueueMany [] .GET_ALL (some (.query none none (some "a"))) 5 [7, 8]).2
        = [EnqueueEffect.pending, EnqueueEffect.pending] ∧
    (((enqueueMany [] .GET_ALL (some (.query none none (some "a"))) 5 [7, 8]).1.filter
          (fun it => it.opType == OpType.READ)).filter
          (fun it => it.id == generateKey .GET_ALL (some (.query none none (some "a")))))
        = [mkEntry .GET_ALL (some (.query none none (some "a"))) 5 [⟨7, 5⟩, ⟨8, 5⟩]] ∧
    readStep (DataStore.seed 2)
        (mkEntry .GET_ALL (some (.query none none (some "a"))) 5 [⟨7, 5⟩, ⟨8, 5⟩])
      = [(7, Outcome.resolved (.page (handleGetAll (DataStore.seed 2)
              (some (.query none none (some "a")))))),
         (8, Outcome.resolved (.page (handleGetAll (DataStore.seed 2)
              (some (.query none none (some "a"))))))] := by
  have h := c1_concurrent_bulk_fetch_dedup (DataStore.seed 2) []
    (some (.query none none (some "a"))) 5 7 [8] (by simp)
  exact ⟨by simpa using h.1, by simpa using h.2.2.1, by simpa using h.2.2.2⟩

/-- Counterexample to claim C2: with current selection [1, 2, 3], submitting
reorder-selection [1, 2] does NOT reject — the claim says it must reject
because id 3 is missing — it succeeds and shrinks the selection to [1, 2]. -/
theorem c2_counterexample :
    (handleUpdateOrder dsSel123 (some (.ids [1, 2]))).2
        = .ok (.orderRes { message := "Порядок обновлен", selectedItems := [1, 2],
                           total := 2 }) ∧
    (handleUpdateOrder dsSel123 (some (.ids [1, 2]))).1.selectedItems = [1, 2] := by
  exact ⟨by decide, by decide⟩

/-- Claim C2 as amended: on the live submit path the original claim fails
twice.  (a) reorder-selection does not require the request to equal the
selection set: the handler rejects exactly when its input contains an id
not currently selected, naming those ids.  (b) before the entry is stored,
the key derivation's in-place `ids.sort()` replaces the request by its
string-sorted form, so an accepted reorder sets the selection to the
sorted request, not the submitted order.  With selection [1,2,3]:
submit [1,2] succeeds leaving selection [1,2]; submit [1,2,3,4] rejects
naming 4; submit [3,1,2] succeeds and a subsequent fetch-selection returns
[1,2,3] — not [3,1,2]. -/
theorem c2_amended_reorder_semantics (ds : DataStore) (ids : List Nat)
    (s now : Nat) :
    enqueue [] .UPDATE_ORDER (some (.ids ids)) s now
        = ([mkEntry .UPDATE_ORDER (some (.ids (jsSort ids))) now [⟨s, now⟩]],
           .pending) ∧
    ((jsSort ids).filter (fun i => !ds.selectedItems.contains i) ≠ [] →
      handleUpdateOrder ds (some (.ids (jsSort ids)))
        = (ds, .error (.notSelectedIds
            ((jsSort ids).filter (fun i => !ds.selectedItems.contains i))))) ∧
    ((jsSort ids).filter (fun i => !ds.selectedItems.contains i) = [] →
      handleUpdateOrder ds (some (.ids (jsSort ids)))
        = ({ ds with selectedItems := jsSort ids },
           .ok (.orderRes { message := "Порядок обновлен",
                            selectedItems := jsSort ids,
                            total := (jsSort ids).length }))) ∧
    (processWriteBatch dsSel123
        (enqueue [] .UPDATE_ORDER (some (.ids [1, 2])) 1 0).1).1.selectedItems
        = [1, 2] ∧
    (processWriteBatch dsSel123
        (enqueue [] .UPDATE_ORDER (some (.ids [1, 2, 3, 4])) 1 0).1).2
        = [(1, Outcome.rejected (.notSelectedIds [4]))] ∧
    (handleGetSelected (processWriteBatch dsSel123
        (enqueue [] .UPDATE_ORDER (some (.ids [3, 1, 2])) 1 0).1).1
        none).selectedIds = [1, 2, 3] ∧
    (handleGetSelected (processWriteBatch dsSel123
        (enqueue [] .UPDATE_ORDER (some (.ids [3, 1, 2])) 1 0).1).1
        none).selectedIds ≠ [3, 1, 2] := by
  refine ⟨?_, ?_, ?_, by decide, by decide, by decide, by decide⟩
  · rw [enqueue_fresh (fun it hm => absurd hm (List.not_mem_nil it))]
    rfl
  · intro hne
    simp only [handleUpdateOrder]
    rw [if_pos (List.length_pos.mpr hne)]
  · intro hnil
    simp only [handleUpdateOrder, DataStore.setSelectedItemsOrder]
    rw [if_neg (by rw [hnil]; decide)]

/-- Witness for C2 (amended): the foreign-id rejection rule applied to the
sorted request at a concrete state. -/
theorem c2_amended_reorder_semantics_witness :
    handleUpdateOrder dsSel123 (some (.ids (jsSort [1, 2, 3, 4])))
      = (dsSel123, .error (.notSelectedIds
          ((jsSort [1, 2, 3, 4]).filter
            (fun i => !dsSel123.selectedItems.contains i)))) :=
  (c2_amended_reorder_semantics dsSel123 [1, 2, 3, 4] 1 0).2.1 (by decide)

/-- Counterexample to claim C3: reorder-selection accepts a request with a
duplicated id (every id is selected), leaving the selection sequence
[1, 1, 2, 3], which is not duplicate-free — so the selection invariant is
not maintained by the reorder handler. -/
theorem c3_counterexample :
    (handleUpdateOrder dsSel123 (some (.ids [1, 1, 2, 3]))).2
        = .ok (.orderRes { message := "Порядок обновлен",
                           selectedItems := [1, 1, 2, 3], total := 4 }) ∧
    (handleUpdateOrder dsSel123 (some (.ids [1, 1, 2, 3]))).1.selectedItems
        = [1, 1, 2, 3] ∧
    ¬ (handleUpdateOrder dsSel123 (some (.ids [1, 1, 2, 3]))).1.selectedItems.Nodup := by
  exact ⟨by decide, by decide, by decide⟩

/-- The reference part of the selection invariant: every selected id refers
to an existing record. -/
def selRefsExist (ds : DataStore) : Prop :=
  ∀ i ∈ ds.selectedItems, ds.itemExists i = true

instance (ds : DataStore) : Decidable (selRefsExist ds) := by
  unfold selRefsExist; infer_instance

/-- Claim C3 as amended: every handler keeps selection ids referring to
existing records; remove-from-selection always preserves duplicate-freeness
and add-to-selection preserves it for duplicate-free requests; but
reorder-selection only checks membership, so it does not preserve
duplicate-freeness (see its counterexample). -/
theorem c3_amended_selection_invariants (ds ds2 : DataStore) (ids : List Nat)
    (r : QResult) :
    (handleAddItem ds (some (.ids ids)) = (ds2, .ok r) →
      (selRefsExist ds → selRefsExist ds2) ∧
      (ds.selectedItems.Nodup → ids.Nodup → ds2.selectedItems.Nodup)) ∧
    (handleRemoveItem ds (some (.ids ids)) = (ds2, .ok r) →
      (selRefsExist ds → selRefsExist ds2) ∧
      (ds.selectedItems.Nodup → ds2.selectedItems.Nodup)) ∧
    (handleUpdateOrder ds (some (.ids ids)) = (ds2, .ok r) →
      (selRefsExist ds → selRefsExist ds2)) := by
  refine ⟨?_, ?_, ?_⟩
  · -- add-to-selection
    intro heq
    by_cases hc : ((ids.filter fun id => !ds.itemExists id).length > 0)
    · exfalso
      simp only [handleAddItem] at heq
      rw [if_pos hc] at heq
      exact Except.noConfusion (congrArg Prod.snd heq)
    · have hall : ∀ i ∈ ids, ds.itemExists i = true := by
        intro i hi
        by_contra hni
        have hmem : i ∈ ids.filter (fun id => !ds.itemExists id) :=
          List.mem_filter.mpr ⟨hi, by simp [Bool.not_eq_true] at hni ⊢; exact hni⟩
        exact hc (List.length_pos.mpr (List.ne_nil_of_mem hmem))
      simp only [handleAddItem, DataStore.addSelectedItems] at heq
      rw [if_neg hc] at heq
      have hds2 : ds2 = { ds with selectedItems :=
          ds.selectedItems ++ ids.filter (fun id => !ds.selectedItems.contains id) } :=
        (congrArg Prod.fst heq).symm
      subst hds2
      constructor
      · intro href i hi
        have hi2 : i ∈ ds.selectedItems
            ++ ids.filter (fun id => !ds.selectedItems.contains id) := hi
        show ds.itemExists i = true
        rcases List.mem_append.mp hi2 with hmem | hmem
        · exact href i hmem
        · exact hall i (List.mem_filter.mp hmem).1
      · intro hnd hidnd
        show (ds.selectedItems
            ++ ids.filter (fun id => !ds.selectedItems.contains id)).Nodup
        refine List.nodup_append.mpr
          ⟨hnd, hidnd.filter (fun id => !ds.selectedItems.contains id), ?_⟩
        intro a ha hafil
        have h2 := (List.mem_filter.mp hafil).2
        simp at h2
        exact h2 ha
  · -- remove-from-selection
    intro heq
    simp only [handleRemoveItem, DataStore.removeSelectedItems] at heq
    have hds2 : ds2
        = { ds with selectedItems := List.filter (fun id => !ids.contains id) ds.selectedItems } :=
      (congrArg Prod.fst heq).symm
    subst hds2
    constructor
    · intro href i hi
      have hi2 : i ∈ List.filter (fun id => !ids.contains id) ds.selectedItems := hi
      show ds.itemExists i = true
      exact href i (List.mem_filter.mp hi2).1
    · intro hnd
      show (List.filter (fun id => !ids.contains id) ds.selectedItems).Nodup
      exact hnd.filter (fun id => !ids.contains id)
  · -- reorder-selection
    intro heq
    by_cases hc : ((ids.filter fun id => !ds.selectedItems.contains id).length > 0)
    · exfalso
      simp only [handleUpdateOrder] at heq
      rw [if_pos hc] at heq
      exact Except.noConfusion (congrArg Prod.snd heq)
    · have hall : ∀ i ∈ ids, i ∈ ds.selectedItems := by
        intro i hi
        by_contra hni
        have hmem : i ∈ ids.filter (fun id => !ds.selectedItems.contains id) :=
          List.mem_filter.mpr ⟨hi, by simpa using hni⟩
        exact hc (List.length_pos.mpr (List.ne_nil_of_mem hmem))
      simp only [handleUpdateOrder, DataStore.setSelectedItemsOrder] at heq
      rw [if_neg hc] at heq
      have hds2 : ds2 = { ds with selectedItems := ids } :=
        (congrArg Prod.fst heq).symm
      subst hds2
      intro href i hi
      have hi2 : i ∈ ids := hi
      show ds.itemExists i = true
      exact href i (hall i hi2)

/-- Witness for C3 (amended): after the accepted reorder [3,1,2] on the
concrete store, every selected id still refers to an existing record. -/
theorem c3_amended_selection_invariants_witness :
    selRefsExist (handleUpdateOrder dsSel123 (some (.ids [3, 1, 2]))).1 := by
  exact (c3_amended_selection_invariants dsSel123
      (handleUpdateOrder dsSel123 (some (.ids [3, 1, 2]))).1 [3, 1, 2]
      (.orderRes { message := "Порядок обновлен", selectedItems := [3, 1, 2],
                   total := 3 })).2.2 (by decide) (by decide)

/-- Claim C4 (code bug): with an explicit id, create-record rejects on
collision as claimed; but without an id, the allocator hands out
`maxId + 1`, and `initialize` never raises `maxId` past 0, so on a seeded
store (ids 1..count, here count = 3 standing for the source's 1000000) the
first no-id create returns id 1, which collides with an existing record and
leaves two records with id 1 in the store — refuting the claim that the new
id never equals an existing record's id.  The generation timestamp is
carried as claimed. -/
theorem c4_create_id_allocation_bug :
    ((DataStore.seed 3).addItem (some 2) "n" "d" "c" 9).2
        = .error (.conflictId 2) ∧
    ((DataStore.seed 3).addItem none "n" "d" "c" 9).2
        = .ok { id := 1, name := "n", description := "d", category := "c",
                createdAt := 9 } ∧
    (DataStore.seed 3).itemExists 1 = true ∧
    (((DataStore.seed 3).addItem none "n" "d" "c" 9).1.items.filter
        (fun it => it.id == 1)).length = 2 := by
  exact ⟨by decide, by decide, by decide, by decide⟩

/-- Counterexample to claim C5: with selection [1, 2], removing [2, 2, 5]
returns removed = 1 and notFound = 1 — not notFound = 2 as the claim
states (the duplicated 2 is currently selected, so only 5 is counted). -/
theorem c5_counterexample :
    (handleRemoveItem dsSel12 (some (.ids [2, 2, 5]))).2
        = .ok (.removeRes { message := "Удалено 1 элементов", removed := 1,
                            notFound := 1, totalSelected := 1 }) ∧
    (handleRemoveItem dsSel12 (some (.ids [2, 2, 5]))).1.selectedItems = [1] := by
  exact ⟨by decide, by decide⟩

/-- Claim C5 as amended: remove-from-selection always succeeds and reports
removed = the number of selection entries that are in the request and
notFound = the number of request entries (with multiplicity) that are not
currently selected; for selection [1,2] and request [2,2,5] this yields
removed = 1 and notFound = 1. -/
theorem c5_amended_remove_accounting (ds : DataStore) (ids : List Nat) :
    ∃ r : RemoveSelectedResult,
      handleRemoveItem ds (some (.ids ids))
        = ({ ds with selectedItems :=
              List.filter (fun id => !ids.contains id) ds.selectedItems },
           .ok (.removeRes r)) ∧
      r.removed = (List.filter (fun id => ids.contains id) ds.selectedItems).length ∧
      r.notFound = (List.filter (fun id => !ds.selectedItems.contains id) ids).length ∧
      r.totalSelected
        = (List.filter (fun id => !ids.contains id) ds.selectedItems).length := by
  have hlen : ds.selectedItems.length
      - (List.filter (fun id => !ids.contains id) ds.selectedItems).length
      = (List.filter (fun id => ids.contains id) ds.selectedItems).length := by
    have h := @List.length_eq_length_filter_add Nat ds.selectedItems
      (fun id => ids.contains id)
    simp only at h
    omega
  exact ⟨_, rfl, hlen, rfl, rfl⟩

/-- A WRITE handler that throws leaves the store exactly as it received it
(every throwing path sits before any mutation). -/
theorem write_error_state (ds : DataStore) (a : QAction) (d : Option Data)
    (e : QErr) (h : (runWriteHandler ds a d).2 = .error e) :
    (runWriteHandler ds a d).1 = ds := by
  cases a with
  | GET_ALL => rfl
  | GET_SELECTED => rfl
  | CREATE_ITEM => rfl
  | ADD_ITEM =>
    cases d with
    | none => rfl
    | some dt =>
      cases dt with
      | query o li f => rfl
      | create i n de c => rfl
      | ids l =>
        by_cases hc : ((l.filter fun id => !ds.itemExists id).length > 0)
        · show (handleAddItem ds (some (.ids l))).1 = ds
          simp only [handleAddItem]
          rw [if_pos hc]
        · exfalso
          have h2 : (handleAddItem ds (some (.ids l))).2 = .error e := h
          simp only [handleAddItem] at h2
          rw [if_neg hc] at h2
          exact Except.noConfusion h2
  | UPDATE_ORDER =>
    cases d with
    | none => rfl
    | some dt =>
      cases dt with
      | query o li f => rfl
      | create i n de c => rfl
      | ids l =>
        by_cases hc : ((l.filter fun id => !ds.selectedItems.contains id).length > 0)
        · show (handleUpdateOrder ds (some (.ids l))).1 = ds
          simp only [handleUpdateOrder]
          rw [if_pos hc]
        · exfalso
          have h2 : (handleUpdateOrder ds (some (.ids l))).2 = .error e := h
          simp only [handleUpdateOrder] at h2
          rw [if_neg hc] at h2
          exact Except.noConfusion h2
  | REMOVE_ITEM =>
    cases d with
    | none => rfl
    | some dt =>
      cases dt with
      | query o li f => rfl
      | create i n de c => rfl
      | ids l =>
        exfalso
        have h2 : (handleRemoveItem ds (some (.ids l))).2 = .error e := h
        simp only [handleRemoveItem] at h2
        exact Except.noConfusion h2

/-- Claim C9: a handler exception is caught and turned into a rejection
delivered to every waiter of that entry with the same error, and the rest
of the batch is processed exactly as if the failed entry were absent: READ
batches split across any partition, and a failing WRITE entry leaves the
store untouched, so the remaining entries produce the same store and the
same outcomes. -/
theorem c9_failure_isolation (ds : DataStore) :
    (∀ items1 items2 : List QueueItem,
      processReadBatch ds (items1 ++ items2)
        = processReadBatch ds items1 ++ processReadBatch ds items2) ∧
    (∀ (it : QueueItem) (e : QErr),
      runReadHandler ds it.action it.data = .error e →
      readStep ds it = it.subscribers.map (fun s => (s.sid, Outcome.rejected e))) ∧
    (∀ (it : QueueItem) (e : QErr),
      (runWriteHandler ds it.action it.data).2 = .error e →
      writeStep ds it = (ds, it.subscribers.map (fun s => (s.sid, Outcome.rejected e))) ∧
      ∀ rest : List QueueItem,
        processWriteBatch ds (it :: rest)
          = ((processWriteBatch ds rest).1,
             it.subscribers.map (fun s => (s.sid, Outcome.rejected e))
               ++ (processWriteBatch ds rest).2)) := by
  refine ⟨?_, ?_, ?_⟩
  · intro items1 items2
    simp [processReadBatch]
  · intro it e h
    simp only [readStep]
    rw [h]
  · intro it e h
    have hst : writeStep ds it
        = (ds, it.subscribers.map (fun s => (s.sid, Outcome.rejected e))) := by
      simp only [writeStep]
      rw [h, write_error_state ds it.action it.data e h]
    refine ⟨hst, ?_⟩
    intro rest
    simp only [processWriteBatch]
    rw [hst]

/-- Witness for C9: a failing add-to-selection entry (missing id 999) is
rejected for both its waiters and the following remove entry is processed
against the untouched store. -/
theorem c9_failure_isolation_witness :
    processWriteBatch (DataStore.seed 2)
        [mkEntry .ADD_ITEM (some (.ids [999])) 0 [⟨1, 0⟩, ⟨2, 0⟩],
         mkEntry .REMOVE_ITEM (some (.ids [1])) 0 [⟨3, 0⟩]]
      = ((processWriteBatch (DataStore.seed 2)
            [mkEntry .REMOVE_ITEM (some (.ids [1])) 0 [⟨3, 0⟩]]).1,
         [(1, Outcome.rejected (.notFoundIds [999])),
          (2, Outcome.rejected (.notFoundIds [999]))]
           ++ (processWriteBatch (DataStore.seed 2)
                [mkEntry .REMOVE_ITEM (some (.ids [1])) 0 [⟨3, 0⟩]]).2) := by
  have h := ((c9_failure_isolation (DataStore.seed 2)).2.2
      (mkEntry .ADD_ITEM (some (.ids [999])) 0 [⟨1, 0⟩, ⟨2, 0⟩])
      (.notFoundIds [999]) (by decide)).2
      [mkEntry .REMOVE_ITEM (some (.ids [1])) 0 [⟨3, 0⟩]]
  simpa using h

/-- Claim C10: the payloads `{filter:"a"}` and `{filter:"a", offset:0,
limit:20}` are distinct yet derive the same dedup key (the key derivation
defaults a missing limit to 20 with `||`), while the bulk-fetch handler
defaults a missing limit to 10 (`?? DEFAULT_LIMIT`), so on an 11-item
store the two payloads produce different results; consequently the later
of two such concurrent submissions joins the earlier entry and is resolved
with the result computed for the other payload. -/
theorem c10_key_default_mismatch :
    generateKey .GET_ALL (some (.query none none (some "a")))
        = generateKey .GET_ALL (some (.query (some 0) (some 20) (some "a"))) ∧
    (some (Data.query none none (some "a")) : Option Data)
        ≠ some (.query (some 0) (some 20) (some "a")) ∧
    (handleGetAll (DataStore.seed 11) (some (.query none none (some "a")))).pagination.limit
        = 10 ∧
    (handleGetAll (DataStore.seed 11)
        (some (.query (some 0) (some 20) (some "a")))).pagination.limit = 20 ∧
    handleGetAll (DataStore.seed 11) (some (.query none none (some "a")))
        ≠ handleGetAll (DataStore.seed 11) (some (.query (some 0) (some 20) (some "a"))) ∧
    (enqueue (enqueue [] .GET_ALL (some (.query none none (some "a"))) 1 0).1
        .GET_ALL (some (.query (some 0) (some 20) (some "a"))) 2 0).1
        = [mkEntry .GET_ALL (some (.query none none (some "a"))) 0 [⟨1, 0⟩, ⟨2, 0⟩]] ∧
    processReadBatch (DataStore.seed 11)
        [mkEntry .GET_ALL (some (.query none none (some "a"))) 0 [⟨1, 0⟩, ⟨2, 0⟩]]
      = [(1, Outcome.resolved (.page (handleGetAll (DataStore.seed 11)
              (some (.query none none (some "a")))))),
         (2, Outcome.resolved (.page (handleGetAll (DataStore.seed 11)
              (some (.query none none (some "a"))))))] := by
  exact ⟨by decide, by decide, by decide, by decide, by decide, by decide, by decide⟩
